import Mathlib

/-!
Verification development for the zenzefi_backend reverse-proxy service.

The Python services are shallowly embedded as pure Lean functions:
* money amounts (ZNC, a 2-decimal fixed-point currency) are integers counting cents;
* timestamps are integers counting seconds;
* database tables are lists of records, queries are list operations;
* the Redis sorted set backing the rate limiter is a list of (member, score) entries.
-/

namespace Zenzefi

/-! ## String primitives

Kernel-reducible models of the Python string operations used by the services,
working on the character list of a `String`. -/

/-- ASCII lowercasing of one character — Python's `str.lower` on header names. -/
def lowerChar (c : Char) : Char :=
  if 'A' ≤ c ∧ c ≤ 'Z' then Char.ofNat (c.toNat + 32) else c

/-- Python's `str.lower` (ASCII range, which covers HTTP header names). -/
def lowerStr (s : String) : String :=
  ⟨s.data.map lowerChar⟩

/-- Python's `str.endswith`. -/
def strEndsWith (s suffix : String) : Bool :=
  suffix.data.isSuffixOf s.data

/-- Python's `str.startswith` / an anchored-literal `re.match`. -/
def strStartsWith (s pre : String) : Bool :=
  pre.data.isPrefixOf s.data

/-- Python's `str.lstrip("/")`. -/
def stripLeadingSlashes (s : String) : String :=
  ⟨s.data.dropWhile (· = '/')⟩

/-- Test whether `sub` occurs as a contiguous run inside `s`. -/
def listHasInfix (sub : List Char) : List Char → Bool
  | [] => sub.isEmpty
  | c :: rest => sub.isPrefixOf (c :: rest) || listHasInfix sub rest

/-- Python's `sub in v` substring test. -/
def valueHasSubstr (sub v : String) : Bool :=
  listHasInfix sub.data v.data

/-! ## Scope policy (`app/core/permissions.py`) -/

/-- The `certificates_only` entries of `SCOPE_PERMISSIONS`.  Every regex in the
source is an anchored literal (`^` followed by plain characters), so matching
with `re.match` is exactly a prefix test on the normalized path. -/
def certificatesOnlyPaths : List String :=
  [ "certificates/filter"
  , "certificates/details/"
  , "certificates/export/"
  , "certificates/import/"
  , "certificates/remove"
  , "certificates/restore"
  , "certificates/activeForTesting"
  , "certificates/activeForTesting/activate/"
  , "certificates/activeForTesting/deactivate/"
  , "certificates/activeForTesting/enhanced"
  , "certificates/activeForTesting/options/"
  , "certificates/activeForTesting/usecases/"
  , "certificates/update/"
  , "certificates/update/cancel"
  , "certificates/update/metrics"
  , "certificates/checkSystemIntegrityReport"
  , "certificates/checkSystemIntegrityLog"
  , "certificates/checkSystemIntegrityLogExistance"
  , "configurations/certificatesColumnOrder"
  , "configurations/certificatesColumnVisibility" ]

/-- Model of `validate_path_access(path, scope)`: `full` allows everything, `certificates_only`
allows the fixed pattern list, unknown scopes deny. The path is normalized by
stripping leading slashes (`path.lstrip("/")`). -/
def validate_path_access (path scope : String) : Bool :=
  let p := stripLeadingSlashes path
  if scope = "full" then true
  else if scope = "certificates_only" then
    certificatesOnlyPaths.any (fun pat => strStartsWith p pat)
  else false

/-! ## Proxy admission endpoint (`app/api/v1/proxy.py`, `proxy_to_zenzefi`) -/

/-- Claims returned by `TokenService.validate_token` / `check_token_status`. -/
structure TokenData where
  userId : String
  tokenId : String
  scope : String
deriving Repr, DecidableEq

/-- The inputs `proxy_to_zenzefi` inspects: the catch-all path, the `token` query
parameter, the `zenzefi_access_token` cookie, the `X-Access-Token` header and the
remaining request headers. -/
structure ProxyRequest where
  path : String
  queryToken : Option String
  cookieToken : Option String
  headerToken : Option String
  headers : List (String × String)
deriving Repr, DecidableEq

/-- The possible outcomes of the admission code path of `proxy_to_zenzefi`. -/
inductive ProxyOutcome where
  | notFound404
  | redirect303
  | unauthorized401
  | forwarded (userId tokenId : String)
deriving Repr, DecidableEq

/-- The admission pipeline of `proxy_to_zenzefi`, parameterized by the outcome of
`TokenService.check_token_status` (for query-parameter tokens) and
`TokenService.validate_token` (for cookie/header tokens): `.map` paths short-circuit
with 404; a query token is status-checked and redirected; otherwise the cookie
takes priority over the header, a missing token is 401, an invalid token is 401,
and a valid token is forwarded to `ProxyService.proxy_request`. -/
def proxy_to_zenzefi (checkStatus validate : String → Option TokenData)
    (req : ProxyRequest) : ProxyOutcome :=
  if strEndsWith req.path ".map" then .notFound404
  else
    match req.queryToken with
    | some qt =>
        match checkStatus qt with
        | none => .unauthorized401
        | some _ => .redirect303
    | none =>
        match req.cookieToken <|> req.headerToken with
        | none => .unauthorized401
        | some tok =>
            match validate tok with
            | none => .unauthorized401
            | some td => .forwarded td.userId td.tokenId

/-- A validation table with one `certificates_only` token and one `full` token,
standing for `TokenService.validate_token` on a database holding those tokens. -/
def demoValidate : String → Option TokenData := fun s =>
  if s = "cert-secret" then some ⟨"user-1", "token-1", "certificates_only"⟩
  else if s = "full-secret" then some ⟨"user-2", "token-2", "full"⟩
  else none

/-! ## Upstream header construction (`app/services/proxy_service.py`, `proxy_request`) -/

/-- The request headers `ProxyService.proxy_request` refuses to copy upstream. -/
def excludedRequestHeaders : List String :=
  ["host", "x-access-token", "x-local-url", "content-length", "transfer-encoding"]

/-- The headers sent upstream by `ProxyService.proxy_request`: copy every request
header whose lowercased name is not excluded, then add `Host`, the forwarding
headers and `X-User-Id` / `X-Token-Id`, and finally HTTP Basic auth from
configuration when configured and no `authorization` key is present. -/
def buildUpstreamHeaders (reqHeaders : List (String × String))
    (clientIp hostHeader netloc userId tokenId : String)
    (basicAuth : Option String) : List (String × String) :=
  let copied := reqHeaders.filter
    (fun kv => !(excludedRequestHeaders.contains (lowerStr kv.1)))
  let withForward := copied ++
    [ ("Host", netloc)
    , ("X-Forwarded-For", clientIp)
    , ("X-Forwarded-Proto", "https")
    , ("X-Forwarded-Host", hostHeader)
    , ("X-User-Id", userId)
    , ("X-Token-Id", tokenId) ]
  match basicAuth with
  | some cred =>
      if withForward.any (fun kv => kv.1 = "authorization") then withForward
      else withForward ++ [("Authorization", "Basic " ++ cred)]
  | none => withForward

/-! ## Session tracker (`app/services/session_service.py`, `track_request`) -/

/-- A row of the `proxy_sessions` table.  `startedAt` and `lastActivity` come from
the model's `datetime.utcnow` defaults at creation time. -/
structure ProxySession where
  userId : String
  tokenId : String
  deviceId : String
  ipAddress : String
  userAgent : Option String
  startedAt : Int
  lastActivity : Int
  requestCount : Nat
  bytesTransferred : Nat
  isActive : Bool
deriving Repr, DecidableEq

/-- Result of `SessionService.track_request`: either a `DeviceConflictError`
carrying the other session's device id, or the updated session table. -/
inductive TrackResult where
  | conflict (otherDeviceId : String)
  | tracked (sessions : List ProxySession)
deriving Repr, DecidableEq

/-- Predicate for `filter(token_id == …, is_active == True)`. -/
def isActiveFor (tokenId : String) (s : ProxySession) : Bool :=
  s.tokenId == tokenId && s.isActive

/-- Replace the first session matching `isActiveFor tokenId` by `f` of it,
mirroring an UPDATE of the row returned by `.first()`. -/
def updateActiveSession (tokenId : String) (f : ProxySession → ProxySession) :
    List ProxySession → List ProxySession
  | [] => []
  | s :: rest =>
      if isActiveFor tokenId s then f s :: rest
      else s :: updateActiveSession tokenId f rest

/-- Model of `SessionService.track_request`: select the active session for the token;
a differing device id raises `DeviceConflictError` and changes nothing; the same
device id refreshes activity, count, bytes, IP and user agent; no active session
creates a new one with `request_count = 1`. -/
def track_request (sessions : List ProxySession)
    (userId tokenId deviceId ipAddress : String) (userAgent : Option String)
    (bytesTransferred : Nat) (now : Int) : TrackResult :=
  match sessions.find? (isActiveFor tokenId) with
  | some s =>
      if s.deviceId ≠ deviceId then .conflict s.deviceId
      else
        .tracked (updateActiveSession tokenId (fun a =>
          { a with
            lastActivity := now
            requestCount := a.requestCount + 1
            bytesTransferred := a.bytesTransferred + bytesTransferred
            ipAddress := ipAddress
            userAgent := userAgent }) sessions)
  | none =>
      .tracked (sessions ++
        [{ userId := userId
           tokenId := tokenId
           deviceId := deviceId
           ipAddress := ipAddress
           userAgent := userAgent
           startedAt := now
           lastActivity := now
           requestCount := 1
           bytesTransferred := bytesTransferred
           isActive := true }])

/-! ## Rate limiter (`app/middleware/rate_limit.py`) -/

/-- One member of the Redis sorted set `rate_limit:{class}:{identifier}`:
the member string `"{timestamp}:{nonce}"` with the timestamp as score. -/
structure RLEntry where
  member : String
  score : Int
deriving Repr, DecidableEq

/-- Model of `RateLimitMiddleware.LIMITS`: requests `N` and window `W` per class. -/
def LIMITS : String → Option (Nat × Int)
  | "auth" => some (5, 3600)
  | "api" => some (100, 60)
  | "proxy" => some (1000, 60)
  | _ => none

/-- Model of the limit-config selection in `RateLimitMiddleware`: auth endpoints are keyed by client
IP, proxy endpoints by token id, everything else by user id. -/
def get_limit_config (path : String)
    (clientIp stateTokenId stateUserId : Option String) : String × Option String :=
  if strStartsWith path "/api/v1/auth" then ("auth", clientIp)
  else if strStartsWith path "/api/v1/proxy" then ("proxy", stateTokenId)
  else ("api", stateUserId)

/-- Model of `redis.zremrangebyscore(key, 0, now - window)`: drop the entries whose score
lies in `[0, now - window]`. -/
def zremrangebyscore (entries : List RLEntry) (now window : Int) : List RLEntry :=
  entries.filter (fun e => !(0 ≤ e.score && e.score ≤ now - window))

/-- The lowest score in the set — what `redis.zrange(key, 0, 0, withscores=True)`
reports for a non-empty sorted set. -/
def lowestScore : List RLEntry → Option Int
  | [] => none
  | e :: rest =>
      match lowestScore rest with
      | none => some e.score
      | some m => some (min e.score m)

/-- Model of the retry-after computation in `RateLimitMiddleware`: seconds until the oldest entry
leaves the window, `max 0 (oldest + window - now)`; the full window if the set
is empty. -/
def getRetryAfter (entries : List RLEntry) (window now : Int) : Int :=
  match lowestScore entries with
  | some oldest => max 0 (oldest + window - now)
  | none => window

/-- Outcome of one pass through the sliding-window check in `dispatch`. -/
inductive RLResult where
  | rejected (retryAfter : Int)
  | allowed (entries : List RLEntry)
deriving Repr, DecidableEq

/-- The sliding-window body of `RateLimitMiddleware.dispatch` for one request:
prune entries outside the window, count the rest, reject with 429 and a
`retry_after` when the count reaches the limit, otherwise `zadd` the current
timestamp with a unique nonce member. -/
def rateLimitStep (entries : List RLEntry) (limitRequests : Nat) (window : Int)
    (now : Int) (member : String) : RLResult :=
  let pruned := zremrangebyscore entries now window
  if limitRequests ≤ pruned.length then
    .rejected (getRetryAfter pruned window now)
  else
    .allowed (pruned ++ [⟨member, now⟩])

/-- Run a sequence of `(timestamp, member)` requests through the limiter,
stopping at the first rejection (whose `retry_after` is returned). -/
def rateLimitRun (limitRequests : Nat) (window : Int) :
    List RLEntry → List (Int × String) → List RLEntry × Option Int
  | s, [] => (s, none)
  | s, (t, m) :: rest =>
      match rateLimitStep s limitRequests window t m with
      | .allowed s' => rateLimitRun limitRequests window s' rest
      | .rejected r => (s, some r)

/-! ## Credit ledger (`app/services/currency_service.py`,
`app/services/payment_service.py`) -/

/-- Model of `TransactionType`. -/
inductive TxType where
  | deposit
  | purchase
  | refund
  | referralBonus
deriving Repr, DecidableEq

/-- A row of the `transactions` table; `amount` is signed cents. -/
structure Tx where
  userId : String
  amount : Int
  txType : TxType
  description : String
  paymentId : Option String
deriving Repr, DecidableEq

/-- The ledger-relevant columns of a `users` row. -/
structure LUser where
  id : String
  balance : Int
  referredBy : Option String
  referralBonusEarned : Int
deriving Repr, DecidableEq

/-- The persistent state the ledger operations touch. -/
structure LedgerState where
  users : List LUser
  txs : List Tx
deriving Repr, DecidableEq

/-- Model of `db.query(User).filter(User.id == uid).first()`. -/
def findUser (users : List LUser) (uid : String) : Option LUser :=
  users.find? (fun u => u.id == uid)

/-- Apply `f` to the user row with id `uid` (ids are unique by primary key). -/
def updateUser (users : List LUser) (uid : String) (f : LUser → LUser) : List LUser :=
  users.map (fun u => if u.id == uid then f u else u)

/-- Apply `f` to the first transaction carrying `payment_id = pid`, mirroring an
UPDATE of the row returned by `.first()`. -/
def updateTxByPayment (pid : String) (f : Tx → Tx) : List Tx → List Tx
  | [] => []
  | t :: rest =>
      if t.paymentId == some pid then f t :: rest
      else t :: updateTxByPayment pid f rest

/-- Sum of the transaction amounts belonging to `uid`. -/
def sumTxs (txs : List Tx) (uid : String) : Int :=
  ((txs.filter (fun t => t.userId == uid)).map (·.amount)).sum

/-- Model of `CurrencyService.credit_balance`: reject non-positive amounts and unknown
users; otherwise add `amount` to the balance and append one deposit transaction,
atomically. -/
def credit_balance (st : LedgerState) (userId : String) (amount : Int)
    (description : String) (paymentId : Option String) : Except String LedgerState :=
  if amount ≤ 0 then .error "Amount must be positive"
  else
    match findUser st.users userId with
    | none => .error "User not found"
    | some _ =>
        .ok { users := updateUser st.users userId
                (fun u => { u with balance := u.balance + amount })
              txs := st.txs ++ [⟨userId, amount, .deposit, description, paymentId⟩] }

/-- Half-to-even rounding of `n / 10` — the effect of
`(amount * Decimal("0.10")).quantize(Decimal("0.01"))` on an amount of `n` cents. -/
def divTenHalfEven (n : Int) : Int :=
  let q := Int.ediv n 10
  let r := Int.emod n 10
  if r < 5 then q
  else if 5 < r then q + 1
  else if q % 2 = 0 then q else q + 1

/-- Model of `CurrencyService.award_referral_bonus`: requires the buyer to exist and have
a referrer, the purchase to exceed 100 ZNC, and the count of the buyer's
purchase transactions of amount `≤ -100.00` (the just-committed one included) to
be at most 1; then credits the referrer 10% (half-even to cents), increments the
lifetime-earned counter and appends one `referral_bonus` transaction. -/
def award_referral_bonus (st : LedgerState) (refereeId : String)
    (purchaseAmount : Int) : Option Int × LedgerState :=
  match findUser st.users refereeId with
  | none => (none, st)
  | some referee =>
      match referee.referredBy with
      | none => (none, st)
      | some referrerId =>
          if purchaseAmount ≤ 10000 then (none, st)
          else
            let previousPurchases :=
              (st.txs.filter (fun t =>
                t.userId == refereeId && t.txType == TxType.purchase &&
                  t.amount ≤ -10000)).length
            if 1 < previousPurchases then (none, st)
            else
              match findUser st.users referrerId with
              | none => (none, st)
              | some _ =>
                  let bonus := divTenHalfEven purchaseAmount
                  (some bonus,
                    { users := updateUser st.users referrerId (fun u =>
                        { u with
                          balance := u.balance + bonus
                          referralBonusEarned := u.referralBonusEarned + bonus })
                      txs := st.txs ++
                        [⟨referrerId, bonus, .referralBonus,
                          "Referral bonus (first purchase)", none⟩] })

/-- Model of `MockPaymentProvider.create_payment`: append a pending deposit transaction
for the requested amount without touching the balance. -/
def create_payment (st : LedgerState) (userId : String) (amount : Int)
    (paymentId : String) : LedgerState :=
  { st with
    txs := st.txs ++
      [⟨userId, amount,
        .deposit, "Balance top-up: " ++ toString amount ++ " ZNC (pending)",
        some paymentId⟩] }

/-- Model of `MockPaymentProvider.handle_webhook`: on `succeeded`, credit the transaction
amount to the user and rewrite `(pending)` to `(succeeded)` in the description;
on `canceled`, rewrite `(pending)` to `(canceled)` without crediting. -/
def handle_webhook (st : LedgerState) (paymentId stat : String) :
    Bool × LedgerState :=
  match st.txs.find? (fun t => t.paymentId == some paymentId) with
  | none => (false, st)
  | some t =>
      if stat = "succeeded" then
        match findUser st.users t.userId with
        | none => (false, st)
        | some _ =>
            (true,
              { users := updateUser st.users t.userId
                  (fun u => { u with balance := u.balance + t.amount })
                txs := updateTxByPayment paymentId
                  (fun tx => { tx with
                    description := tx.description.replace "(pending)" "(succeeded)" })
                  st.txs })
      else if stat = "canceled" then
        (false,
          { st with
            txs := updateTxByPayment paymentId
              (fun tx => { tx with
                description := tx.description.replace "(pending)" "(canceled)" })
              st.txs })
      else (false, st)

/-! ## Ledger state machine (for the balance/transaction invariant) -/

/-- The operations that commit balance or transaction changes: `credit_balance`,
the purchase deduction of `generate_access_token` / `purchase_bundle`, the
refund of `revoke_token`, the referral bonus, and the mock payment flow. -/
inductive LedgerOp where
  | credit (userId : String) (amount : Int) (description : String)
      (paymentId : Option String)
  | purchaseDebit (userId : String) (cost : Int) (description : String)
  | refundCredit (userId : String) (amount : Int) (description : String)
  | referralBonus (refereeId : String) (purchaseAmount : Int)
  | createPayment (userId : String) (amount : Int) (paymentId : String)
  | webhook (paymentId stat : String)
deriving Repr, DecidableEq

/-- The purchase-side ledger effect shared by `TokenService.generate_access_token`
and `BundleService.purchase_bundle`: under the user row lock, require
`balance ≥ cost`, deduct, and append one purchase transaction of `-cost`. -/
def purchaseDebit (st : LedgerState) (userId : String) (cost : Int)
    (description : String) : Except String LedgerState :=
  match findUser st.users userId with
  | none => .error "User not found"
  | some u =>
      if u.balance < cost then .error "Insufficient balance"
      else
        .ok { users := updateUser st.users userId
                (fun v => { v with balance := v.balance - cost })
              txs := st.txs ++ [⟨userId, -cost, .purchase, description, none⟩] }

/-- The refund-side ledger effect of `TokenService.revoke_token`: add the refund
to the balance and append a refund transaction only when the refund is positive. -/
def refundCredit (st : LedgerState) (userId : String) (amount : Int)
    (description : String) : Except String LedgerState :=
  match findUser st.users userId with
  | none => .error "User not found"
  | some _ =>
      .ok { users := updateUser st.users userId
              (fun u => { u with balance := u.balance + amount })
            txs := if 0 < amount then
                st.txs ++ [⟨userId, amount, .refund, description, none⟩]
              else st.txs }

/-- Apply one ledger operation; a failed operation rolls back, leaving the state
unchanged. -/
def applyOp (st : LedgerState) : LedgerOp → LedgerState
  | .credit uid amount d pid =>
      match credit_balance st uid amount d pid with
      | .ok st' => st'
      | .error _ => st
  | .purchaseDebit uid cost d =>
      match purchaseDebit st uid cost d with
      | .ok st' => st'
      | .error _ => st
  | .refundCredit uid amount d =>
      match refundCredit st uid amount d with
      | .ok st' => st'
      | .error _ => st
  | .referralBonus rid amount => (award_referral_bonus st rid amount).2
  | .createPayment uid amount pid => create_payment st uid amount pid
  | .webhook pid stat => (handle_webhook st pid stat).2

/-- Run a list of ledger operations left to right. -/
def applyOps (st : LedgerState) (ops : List LedgerOp) : LedgerState :=
  ops.foldl applyOp st

/-- Operations outside the mock payment flow, with the refund amount
non-negative as `revoke_token` guarantees (`max(0, …)`). -/
def isPlainLedgerOp : LedgerOp → Prop
  | .credit _ _ _ _ => True
  | .purchaseDebit _ _ _ => True
  | .refundCredit _ amount _ => 0 ≤ amount
  | .referralBonus _ _ => True
  | .createPayment _ _ _ => False
  | .webhook _ _ => False

/-- The per-user ledger invariant (L1): balance equals the sum of the user's
transaction amounts. -/
def BalancedState (st : LedgerState) : Prop :=
  ∀ u ∈ st.users, u.balance = sumTxs st.txs u.id

/-! ## Access tokens (`app/models/token.py`, `app/services/token_service.py`) -/

/-- A row of the `access_tokens` table (times in seconds, not exposing the
secret string, which none of the claims under proof inspect). -/
structure AccessToken where
  id : String
  userId : String
  durationHours : Nat
  scope : String
  createdAt : Int
  activatedAt : Option Int
  isActive : Bool
  revokedAt : Option Int
deriving Repr, DecidableEq

/-- The derived `expires_at` property: `activated_at + duration_hours`, or null
for a not-yet-activated token. -/
def AccessToken.expiresAt (t : AccessToken) : Option Int :=
  t.activatedAt.map (fun a => a + (t.durationHours : Int) * 3600)

/-- Model of `settings.get_token_price` in cents: {1h: 1.00, 12h: 10.00, 24h: 18.00,
168h: 100.00, 720h: 300.00} ZNC. -/
def get_token_price (durationHours : Nat) : Option Int :=
  if durationHours = 1 then some 100
  else if durationHours = 12 then some 1000
  else if durationHours = 24 then some 1800
  else if durationHours = 168 then some 10000
  else if durationHours = 720 then some 30000
  else none

/-- Newest-created-first ordering used by `order_by(created_at.desc())`. -/
def createdDesc (a b : AccessToken) : Prop :=
  b.createdAt ≤ a.createdAt

instance : DecidableRel createdDesc := fun a b =>
  inferInstanceAs (Decidable (b.createdAt ≤ a.createdAt))

instance : IsTotal AccessToken createdDesc :=
  ⟨fun a b => (le_total b.createdAt a.createdAt).imp id id⟩

instance : IsTrans AccessToken createdDesc :=
  ⟨fun _ _ _ hab hbc => le_trans hbc hab⟩

/-- The usability filter applied in Python by `get_user_tokens(active_only=True)`:
not yet activated, or expiry strictly in the future. -/
def notExpired (now : Int) (t : AccessToken) : Bool :=
  match t.expiresAt with
  | none => true
  | some e => now < e

/-- Model of `TokenService.get_user_tokens`: the user's tokens; with `active_only`, only
rows with `is_active`, `revoked_at IS NULL`, ordered newest-created first and
then filtered to `activated_at is None or expires_at > now`. -/
def get_user_tokens (tokens : List AccessToken) (userId : String)
    (activeOnly : Bool) (now : Int) : List AccessToken :=
  let mine := tokens.filter (fun t => t.userId == userId)
  if activeOnly then
    let active := mine.filter (fun t => t.isActive && t.revokedAt == none)
    (active.insertionSort createdDesc).filter (notExpired now)
  else
    mine.insertionSort createdDesc

/-- Half-to-even rounding of a rational number of cents — the effect of
`Decimal.quantize(Decimal('0.01'))` on the refund computation. -/
def roundHalfEvenQ (q : ℚ) : Int :=
  let f := ⌊q⌋
  let r := q - (f : ℚ)
  if r < 1/2 then f
  else if 1/2 < r then f + 1
  else if f % 2 = 0 then f else f + 1

/-- Result of a successful `TokenService.revoke_token`. -/
structure RevokeOutcome where
  refundAmount : Int
  newBalance : Int
  token : AccessToken
  txs : List Tx
deriving Repr, DecidableEq

/-- Model of `TokenService.revoke_token`: look up the caller's active token row; compute
the unused fraction of its duration (zero hours used when never activated),
prorate the price, round half-even to cents; deactivate the row, stamp
`revoked_at`, credit the refund and append a refund transaction when positive. -/
def revoke_token (tokens : List AccessToken) (tokenId userId : String)
    (balance : Int) (txs : List Tx) (now : Int) : Except String RevokeOutcome :=
  match tokens.find? (fun t =>
      t.id == tokenId && t.userId == userId && t.isActive) with
  | none => .error "Token not found or already revoked"
  | some tok =>
      let timeUsedHours : ℚ :=
        match tok.activatedAt with
        | some act => ((now - act : Int) : ℚ) / 3600
        | none => 0
      let timeUnusedHours : ℚ := max 0 ((tok.durationHours : ℚ) - timeUsedHours)
      let cost : Int := (get_token_price tok.durationHours).getD 0
      let refundAmount : Int :=
        roundHalfEvenQ ((cost : ℚ) * (timeUnusedHours / (tok.durationHours : ℚ)))
      .ok { refundAmount := refundAmount
            newBalance := balance + refundAmount
            token := { tok with isActive := false, revokedAt := some now }
            txs := if 0 < refundAmount then
                txs ++ [⟨userId, refundAmount, .refund, "Token refund", none⟩]
              else txs }

/-! ## Bundle purchase (`app/services/bundle_service.py`) -/

/-- A row of the `token_bundles` table (`total_price` in cents). -/
structure Bundle where
  id : String
  name : String
  tokenCount : Nat
  durationHours : Nat
  scope : String
  totalPrice : Int
  isActive : Bool
deriving Repr, DecidableEq

/-- The buyer-side state `purchase_bundle` reads and writes. -/
structure PurchaseState where
  balance : Int
  tokens : List AccessToken
  txs : List Tx
deriving Repr, DecidableEq

/-- The fields of the dictionary `purchase_bundle` returns (the token list is
recoverable from the state delta). -/
structure BundleOutcome where
  bundleName : String
  tokensGenerated : Nat
  costZnc : Int
  newBalance : Int
deriving Repr, DecidableEq

/-- Failure modes of `purchase_bundle`. -/
inductive BundleErr where
  | bundleNotFound
  | insufficientBalance
deriving Repr, DecidableEq

/-- Modelled from the spec: `TokenService.create_token_without_charge` is called
by `BundleService.purchase_bundle` but absent from the source tree; following
§4.8, it issues one access token with the bundle's duration and scope, with
`activation_time` null and `active = true`, without the per-token
price/deduction path. -/
def create_token_without_charge (tokenId userId : String) (durationHours : Nat)
    (scope : String) (now : Int) : AccessToken :=
  { id := tokenId
    userId := userId
    durationHours := durationHours
    scope := scope
    createdAt := now
    activatedAt := none
    isActive := true
    revokedAt := none }

/-- Model of `BundleService.purchase_bundle`: validate the bundle exists and is active
(404), require `balance ≥ total_price` (402), deduct the total price, issue
`token_count` tokens via `create_token_without_charge`, append exactly one
purchase transaction of `-total_price`, and commit atomically. -/
def purchase_bundle (bundles : List Bundle) (bundleId userId : String)
    (st : PurchaseState) (now : Int) : Except BundleErr (BundleOutcome × PurchaseState) :=
  match bundles.find? (fun b => b.id == bundleId && b.isActive) with
  | none => .error .bundleNotFound
  | some bundle =>
      if st.balance < bundle.totalPrice then .error .insufficientBalance
      else
        let newTokens := (List.range bundle.tokenCount).map (fun i =>
          create_token_without_charge (bundleId ++ "-" ++ toString i) userId
            bundle.durationHours bundle.scope now)
        let st' : PurchaseState :=
          { balance := st.balance - bundle.totalPrice
            tokens := st.tokens ++ newTokens
            txs := st.txs ++
              [⟨userId, -bundle.totalPrice, .purchase,
                "Bundle purchase: " ++ bundle.name, none⟩] }
        .ok ({ bundleName := bundle.name
               tokensGenerated := newTokens.length
               costZnc := bundle.totalPrice
               newBalance := st'.balance }, st')

/-! ## Concrete fixtures used by the claim theorems -/

/-- A 24-hour token activated 12 hours ago (at second 43200, with `now = 86400`). -/
def activatedToken : AccessToken :=
  { id := "tok-1"
    userId := "user-1"
    durationHours := 24
    scope := "full"
    createdAt := 0
    activatedAt := some 43200
    isActive := true
    revokedAt := none }

/-- One user with zero balance and an empty transaction log. -/
def zeroState : LedgerState :=
  { users := [⟨"u1", 0, none, 0⟩], txs := [] }

/-- A buyer referred by `"ref"` whose log holds an earlier purchase of exactly
100.00 ZNC and the just-committed purchase of 150.00 ZNC. -/
def refereeState : LedgerState :=
  { users := [⟨"buyer", 4700, some "ref", 0⟩, ⟨"ref", 0, none, 0⟩]
    txs := [⟨"buyer", -10000, .purchase, "Token purchase: 168h (full)", none⟩,
            ⟨"buyer", -15000, .purchase, "Bundle purchase: big", none⟩] }

/-- A buyer referred by `"ref2"` whose only purchase is the just-committed
100.01 ZNC one. -/
def firstBuyerState : LedgerState :=
  { users := [⟨"buyer2", 0, some "ref2", 0⟩, ⟨"ref2", 0, none, 0⟩]
    txs := [⟨"buyer2", -10001, .purchase, "Token purchase", none⟩] }

/-- The bundle of spec scenario 5: 10 tokens of 24 h at 153.00 ZNC total. -/
def demoBundle : Bundle :=
  { id := "bundle-1"
    name := "10x24h"
    tokenCount := 10
    durationHours := 24
    scope := "full"
    totalPrice := 15300
    isActive := true }

/-- A buyer state with 200.00 ZNC about to purchase `demoBundle`. -/
def demoBuyerState : PurchaseState :=
  { balance := 20000, tokens := [], txs := [] }

instance decidableBalancedState (st : LedgerState) : Decidable (BalancedState st) :=
  decidable_of_iff (∀ u ∈ st.users, u.balance = sumTxs st.txs u.id) Iff.rfl

instance decidableIsPlainLedgerOp : DecidablePred isPlainLedgerOp := fun op => by
  cases op <;> simp only [isPlainLedgerOp] <;> infer_instance

/-- A freshly purchased, never-activated token owned by `"u"`. -/
def freshToken : AccessToken :=
  { id := "tok-w"
    userId := "u"
    durationHours := 24
    scope := "full"
    createdAt := 5
    activatedAt := none
    isActive := true
    revokedAt := none }

/-- Spec scenario 1 as ledger operations: credit 100.00, buy a 24 h token at
18.00, revoke it for a full 18.00 refund. -/
def purchaseRevokeCycleOps : List LedgerOp :=
  [ .credit "u1" 10000 "Test deposit" none
  , .purchaseDebit "u1" 1800 "Token purchase: 24h (full)"
  , .refundCredit "u1" 1800 "Token refund: 24.0h unused" ]

/-! ## Claim theorems -/

/-- Case analysis for membership in the upstream header list: a forwarded header
is either a copied, non-excluded request header, one of the six added headers,
or the configured `Authorization` header. -/
theorem mem_buildUpstreamHeaders
    (reqHeaders : List (String × String))
    (clientIp hostHeader netloc userId tokenId : String)
    (basicAuth : Option String) (kv : String × String)
    (hkv : kv ∈ buildUpstreamHeaders reqHeaders clientIp hostHeader netloc
      userId tokenId basicAuth) :
    (kv ∈ reqHeaders ∧
        excludedRequestHeaders.contains (lowerStr kv.1) = false)
    ∨ kv.1 = "Host" ∨ kv.1 = "X-Forwarded-For" ∨ kv.1 = "X-Forwarded-Proto"
    ∨ kv.1 = "X-Forwarded-Host" ∨ kv.1 = "X-User-Id" ∨ kv.1 = "X-Token-Id"
    ∨ kv.1 = "Authorization" := by
  have hsix : ∀ n : String × String,
      kv ∈ [("Host", netloc), ("X-Forwarded-For", clientIp),
        ("X-Forwarded-Proto", "https"), ("X-Forwarded-Host", hostHeader),
        ("X-User-Id", userId), ("X-Token-Id", tokenId), n] →
      kv.1 = "Host" ∨ kv.1 = "X-Forwarded-For" ∨ kv.1 = "X-Forwarded-Proto"
      ∨ kv.1 = "X-Forwarded-Host" ∨ kv.1 = "X-User-Id" ∨ kv.1 = "X-Token-Id"
      ∨ kv.1 = n.1 := by
    intro n hn
    simp only [List.mem_cons, List.not_mem_nil, or_false] at hn
    rcases hn with h | h | h | h | h | h | h <;> rw [h]
    · exact Or.inl rfl
    · exact Or.inr (Or.inl rfl)
    · exact Or.inr (Or.inr (Or.inl rfl))
    · exact Or.inr (Or.inr (Or.inr (Or.inl rfl)))
    · exact Or.inr (Or.inr (Or.inr (Or.inr (Or.inl rfl))))
    · exact Or.inr (Or.inr (Or.inr (Or.inr (Or.inr (Or.inl rfl)))))
    · exact Or.inr (Or.inr (Or.inr (Or.inr (Or.inr (Or.inr rfl)))))
  have hcopied : ∀ h : kv ∈ reqHeaders.filter
      (fun kv' => !(excludedRequestHeaders.contains (lowerStr kv'.1))),
      kv ∈ reqHeaders ∧ excludedRequestHeaders.contains (lowerStr kv.1) = false := by
    intro h
    have hm := List.mem_filter.mp h
    exact ⟨hm.1, by simpa using hm.2⟩
  rcases basicAuth with _ | cred
  · simp only [buildUpstreamHeaders, List.mem_append] at hkv
    rcases hkv with h | h
    · exact Or.inl (hcopied h)
    · simp only [List.mem_cons, List.not_mem_nil, or_false] at h
      rcases h with h | h | h | h | h | h <;> rw [h]
      · exact Or.inr (Or.inl rfl)
      · exact Or.inr (Or.inr (Or.inl rfl))
      · exact Or.inr (Or.inr (Or.inr (Or.inl rfl)))
      · exact Or.inr (Or.inr (Or.inr (Or.inr (Or.inl rfl))))
      · exact Or.inr (Or.inr (Or.inr (Or.inr (Or.inr (Or.inl rfl)))))
      · exact Or.inr (Or.inr (Or.inr (Or.inr (Or.inr (Or.inr (Or.inl rfl))))))
  · simp only [buildUpstreamHeaders] at hkv
    split at hkv
    · simp only [List.mem_append] at hkv
      rcases hkv with h | h
      · exact Or.inl (hcopied h)
      · simp only [List.mem_cons, List.not_mem_nil, or_false] at h
        rcases h with h | h | h | h | h | h <;> rw [h]
        · exact Or.inr (Or.inl rfl)
        · exact Or.inr (Or.inr (Or.inl rfl))
        · exact Or.inr (Or.inr (Or.inr (Or.inl rfl)))
        · exact Or.inr (Or.inr (Or.inr (Or.inr (Or.inl rfl))))
        · exact Or.inr (Or.inr (Or.inr (Or.inr (Or.inr (Or.inl rfl)))))
        · exact Or.inr (Or.inr (Or.inr (Or.inr (Or.inr (Or.inr (Or.inl rfl))))))
    · simp only [List.append_assoc, List.mem_append] at hkv
      rcases hkv with h | h
      · exact Or.inl (hcopied h)
      · have hh : kv ∈ [("Host", netloc), ("X-Forwarded-For", clientIp),
            ("X-Forwarded-Proto", "https"), ("X-Forwarded-Host", hostHeader),
            ("X-User-Id", userId), ("X-Token-Id", tokenId),
            ("Authorization", "Basic " ++ cred)] := by
          simp only [List.mem_cons, List.not_mem_nil, or_false]
          have h' := h
          simp only [List.mem_append, List.mem_cons, List.not_mem_nil,
            or_false, List.mem_singleton] at h'
          tauto
        have := hsix ("Authorization", "Basic " ++ cred) hh
        tauto

/-- C1: a request for `users/currentUser` presenting a valid
`certificates_only` token is forwarded upstream by `proxy_to_zenzefi` even
though `validate_path_access` denies that path for the scope — the admission
pipeline never consults the scope policy, so the promised 403 does not happen. -/
theorem scope_policy_not_enforced_by_pipeline :
    proxy_to_zenzefi demoValidate demoValidate
        { path := "users/currentUser"
          queryToken := none
          cookieToken := none
          headerToken := some "cert-secret"
          headers := [("x-device-id", "device-12345678")] }
      = .forwarded "user-1" "token-1"
    ∧ validate_path_access "users/currentUser" "certificates_only" = false := by
  exact ⟨by decide, by decide⟩

/-- C2: a proxied request that carries no `X-Device-ID` header at all is still
forwarded upstream by `proxy_to_zenzefi` — the pipeline never requires a device
id, so the promised 403 on a missing or mis-sized device id does not happen. -/
theorem device_id_header_not_required :
    proxy_to_zenzefi demoValidate demoValidate
        { path := "certificates/filter"
          queryToken := none
          cookieToken := none
          headerToken := some "full-secret"
          headers := [] }
      = .forwarded "user-2" "token-2" := by
  decide

/-- C4: `revoke_token` on a token whose activation time is set does not fail
with *CannotRevokeActivated*: for a 24-hour token activated 12 hours ago it
succeeds, deactivates the row and credits a prorated refund of 9.00 ZNC (half
the 18.00 price), appending a refund transaction. -/
theorem revoke_activated_token_succeeds_with_prorated_refund :
    revoke_token [activatedToken] "tok-1" "user-1" 8200 [] 86400
      = .ok { refundAmount := 900
              newBalance := 9100
              token := { activatedToken with isActive := false, revokedAt := some 86400 }
              txs := [⟨"user-1", 900, .refund, "Token refund", none⟩] } := by
  norm_num [revoke_token, activatedToken, roundHalfEvenQ, get_token_price,
    List.find?]

/-- C6 counterexample: when the client authenticates through the
`zenzefi_access_token` cookie, `ProxyService.proxy_request` copies the `cookie`
header — which is not on the exclusion list — upstream verbatim, so the
client-presented token secret does appear in the headers sent upstream. -/
theorem cookie_token_forwarded_upstream :
    ("cookie", "zenzefi_access_token=SECRET123")
        ∈ buildUpstreamHeaders [("cookie", "zenzefi_access_token=SECRET123")]
            "10.0.0.1" "proxy.local" "zenzefi.internal" "user-1" "token-1" none
    ∧ valueHasSubstr "SECRET123" "zenzefi_access_token=SECRET123" = true := by
  exact ⟨by decide, by decide⟩

/-- C6 (amended): the client auth header itself is never forwarded — no header
sent upstream by `ProxyService.proxy_request` has the (case-insensitive) name
`x-access-token`, whatever the incoming request headers were. -/
theorem access_token_header_never_forwarded :
    ∀ (reqHeaders : List (String × String))
      (clientIp hostHeader netloc userId tokenId : String)
      (basicAuth : Option String),
      ∀ kv ∈ buildUpstreamHeaders reqHeaders clientIp hostHeader netloc userId
          tokenId basicAuth,
        lowerStr kv.1 ≠ "x-access-token" := by
  intro reqHeaders clientIp hostHeader netloc userId tokenId basicAuth kv hkv
  rcases mem_buildUpstreamHeaders reqHeaders clientIp hostHeader netloc userId
      tokenId basicAuth kv hkv with
    ⟨_, hexcl⟩ | h | h | h | h | h | h | h
  · intro heq
    rw [heq] at hexcl
    exact absurd hexcl (by decide)
  · rw [h]; exact (by decide : lowerStr "Host" ≠ "x-access-token")
  · rw [h]; exact (by decide : lowerStr "X-Forwarded-For" ≠ "x-access-token")
  · rw [h]; exact (by decide : lowerStr "X-Forwarded-Proto" ≠ "x-access-token")
  · rw [h]; exact (by decide : lowerStr "X-Forwarded-Host" ≠ "x-access-token")
  · rw [h]; exact (by decide : lowerStr "X-User-Id" ≠ "x-access-token")
  · rw [h]; exact (by decide : lowerStr "X-Token-Id" ≠ "x-access-token")
  · rw [h]; exact (by decide : lowerStr "Authorization" ≠ "x-access-token")

/-- Appending one transaction adds its amount to the owner's transaction sum
and nothing to anyone else's. -/
theorem sumTxs_append_single (txs : List Tx) (t : Tx) (uid : String) :
    sumTxs (txs ++ [t]) uid
      = sumTxs txs uid + (if t.userId == uid then t.amount else 0) := by
  by_cases h : (t.userId == uid) = true <;>
    simp [sumTxs, List.filter_append, h]

/-- Crediting `amount` to one user while appending one matching transaction
preserves the balance invariant. -/
theorem balanced_append_update (st : LedgerState) (uid : String) (amount : Int)
    (t : Tx) (f : LUser → LUser)
    (hfid : ∀ u, (f u).id = u.id)
    (hfbal : ∀ u, (f u).balance = u.balance + amount)
    (ht : t.userId = uid) (hamt : t.amount = amount)
    (h : BalancedState st) :
    BalancedState { users := updateUser st.users uid f, txs := st.txs ++ [t] } := by
  intro u' hu'
  simp only [updateUser, List.mem_map] at hu'
  obtain ⟨u, hu, rfl⟩ := hu'
  by_cases hid : (u.id == uid) = true
  · rw [if_pos hid, hfbal u, hfid u, sumTxs_append_single, h u hu]
    have : (t.userId == u.id) = true := by
      rw [ht, beq_iff_eq]
      exact (beq_iff_eq.mp hid).symm
    rw [if_pos this, hamt]
  · rw [if_neg hid, sumTxs_append_single, h u hu]
    have : (t.userId == u.id) = false := by
      rw [ht, beq_eq_false_iff_ne]
      intro heq
      exact hid (beq_iff_eq.mpr heq.symm)
    rw [this]
    simp

/-- A user update that keeps every balance unchanged, with no transaction
appended, preserves the balance invariant. -/
theorem balanced_update_nobalance (st : LedgerState) (uid : String)
    (f : LUser → LUser)
    (hfid : ∀ u, (f u).id = u.id)
    (hfbal : ∀ u, (f u).balance = u.balance)
    (h : BalancedState st) :
    BalancedState { users := updateUser st.users uid f, txs := st.txs } := by
  intro u' hu'
  simp only [updateUser, List.mem_map] at hu'
  obtain ⟨u, hu, rfl⟩ := hu'
  by_cases hid : (u.id == uid) = true
  · rw [if_pos hid, hfbal u, hfid u]
    exact h u hu
  · rw [if_neg hid]
    exact h u hu

/-- One ledger operation outside the mock payment flow preserves the balance
invariant. -/
theorem applyOp_balanced (st : LedgerState) (op : LedgerOp)
    (hop : isPlainLedgerOp op) (h : BalancedState st) :
    BalancedState (applyOp st op) := by
  cases op with
  | credit uid amount d pid =>
      simp only [applyOp]
      split
      next st' heq =>
        unfold credit_balance at heq
        split at heq
        · exact absurd heq (by simp)
        · split at heq
          · exact absurd heq (by simp)
          · rw [Except.ok.injEq] at heq
            rw [← heq]
            exact balanced_append_update st uid amount _ _
              (fun u => rfl) (fun u => rfl) rfl rfl h
      next e heq => exact h
  | purchaseDebit uid cost d =>
      simp only [applyOp]
      split
      next st' heq =>
        unfold Zenzefi.purchaseDebit at heq
        split at heq
        · exact absurd heq (by simp)
        · split at heq
          · exact absurd heq (by simp)
          · rw [Except.ok.injEq] at heq
            rw [← heq]
            exact balanced_append_update st uid (-cost) _ _
              (fun u => rfl) (fun u => by simp only []; ring) rfl rfl h
      next e heq => exact h
  | refundCredit uid amount d =>
      simp only [applyOp]
      split
      next st' heq =>
        unfold Zenzefi.refundCredit at heq
        split at heq
        · exact absurd heq (by simp)
        · rw [Except.ok.injEq] at heq
          rw [← heq]
          by_cases hpos : (0 : Int) < amount
          · simp only [if_pos hpos]
            exact balanced_append_update st uid amount _ _
              (fun u => rfl) (fun u => rfl) rfl rfl h
          · simp only [if_neg hpos]
            have hz : amount = 0 := le_antisymm (not_lt.mp hpos) hop
            exact balanced_update_nobalance st uid _
              (fun u => rfl) (fun u => by simp [hz]) h
      next e heq => exact h
  | referralBonus rid amount =>
      simp only [applyOp, award_referral_bonus]
      split
      · exact h
      · split
        · exact h
        · split
          · exact h
          · split
            · exact h
            · split
              · exact h
              · exact balanced_append_update st _ (divTenHalfEven amount) _ _
                  (fun u => rfl) (fun u => rfl) rfl rfl h
  | createPayment uid amount pid => exact hop.elim
  | webhook pid stat => exact hop.elim

/-- C5 counterexample: `MockPaymentProvider.create_payment` appends the pending
deposit transaction without crediting the balance, so right after its commit a
user with zero balance has a transaction sum of 50.00 ZNC — the balance no
longer equals the sum of the transaction amounts. -/
theorem pending_deposit_breaks_balance_invariant :
    ¬ BalancedState (applyOp zeroState (.createPayment "u1" 5000 "MOCK_PAY_1")) := by
  decide

/-- C5 (amended): for every execution made of ledger operations outside the
mock payment flow — `credit_balance`, the purchase deduction, the revoke refund
(non-negative by construction), the referral bonus — every user's balance
equals the sum of that user's transaction amounts at every commit point. -/
theorem ledger_balance_invariant_outside_payment_flow :
    ∀ (ops : List LedgerOp) (st : LedgerState),
      BalancedState st → (∀ op ∈ ops, isPlainLedgerOp op) →
      BalancedState (applyOps st ops) := by
  intro ops
  induction ops with
  | nil => intro st h _; exact h
  | cons op rest ih =>
      intro st h hops
      exact ih (applyOp st op)
        (applyOp_balanced st op (hops op (by simp)) h)
        (fun o ho => hops o (by simp [ho]))

/-- C5 amended-theorem witness: the purchase–revoke cycle of spec scenario 1
keeps the zero-balance user's balance equal to its transaction sum. -/
theorem ledger_balance_invariant_witness :
    BalancedState (applyOps zeroState purchaseRevokeCycleOps) :=
  ledger_balance_invariant_outside_payment_flow purchaseRevokeCycleOps zeroState
    (by decide) (by decide)

/-- C7 counterexample: a buyer with a live referrer whose earlier purchase was
exactly 100.00 ZNC gets no bonus on the just-committed 150.00 ZNC purchase,
although by the claim's own filter (absolute amount strictly greater than 100)
that purchase is the first qualifying one — the code counts purchases of
absolute amount `≥ 100.00`, so the earlier 100.00 purchase disqualifies. -/
theorem exactly_100_purchase_disqualifies_bonus :
    (award_referral_bonus refereeState "buyer" 15000).1 = none
    ∧ (refereeState.txs.filter (fun t =>
        t.userId == "buyer" && t.txType == TxType.purchase &&
          t.amount < -10000)).length = 1
    ∧ ((findUser refereeState.users "buyer").map (·.referredBy))
        = some (some "ref")
    ∧ (findUser refereeState.users "ref").isSome = true := by
  exact ⟨by decide, by decide, by decide, by decide⟩

/-- C7 (amended): `award_referral_bonus` pays out exactly when the buyer exists
with a live referrer, the purchase amount strictly exceeds 100 ZNC, and the
buyer's purchase transactions of absolute amount at least 100 ZNC (the
just-committed one included) number at most one; the payout is 10% of the
purchase amount rounded half-to-even to cents, credited to the referrer
together with the same lifetime-earned increment and exactly one
`referral_bonus` transaction. -/
theorem award_referral_bonus_correct :
    ∀ (st : LedgerState) (refereeId : String) (amount : Int),
      ((award_referral_bonus st refereeId amount).1.isSome = true ↔
        (∃ referee, findUser st.users refereeId = some referee ∧
          ∃ rid, referee.referredBy = some rid ∧
            (findUser st.users rid).isSome = true ∧ 10000 < amount ∧
            (st.txs.filter (fun t =>
              t.userId == refereeId && t.txType == TxType.purchase &&
                t.amount ≤ -10000)).length ≤ 1))
      ∧ (∀ (b : Int) (st' : LedgerState),
          award_referral_bonus st refereeId amount = (some b, st') →
          b = divTenHalfEven amount ∧
          ∃ referee rid,
            findUser st.users refereeId = some referee ∧
            referee.referredBy = some rid ∧
            st'.txs = st.txs ++
              [⟨rid, b, .referralBonus, "Referral bonus (first purchase)", none⟩] ∧
            st'.users = updateUser st.users rid (fun u =>
              { u with
                balance := u.balance + b
                referralBonusEarned := u.referralBonusEarned + b })) := by
  intro st refereeId amount
  cases hfind : findUser st.users refereeId with
  | none =>
      constructor
      · simp [award_referral_bonus, hfind]
      · intro b st' hpair
        simp [award_referral_bonus, hfind] at hpair
  | some referee =>
      cases href : referee.referredBy with
      | none =>
          constructor
          · simp [award_referral_bonus, hfind, href]
          · intro b st' hpair
            simp [award_referral_bonus, hfind, href] at hpair
      | some rid =>
          by_cases hamt : amount ≤ 10000
          · constructor
            · simp only [award_referral_bonus, hfind, href, if_pos hamt]
              constructor
              · intro hfalse
                exact absurd hfalse (by simp)
              · rintro ⟨referee', heq, rid', _, _, hlt, _⟩
                omega
            · intro b st' hpair
              simp only [award_referral_bonus, hfind, href, if_pos hamt] at hpair
              exact absurd hpair (by simp)
          · by_cases hcount : 1 <
                (st.txs.filter (fun t =>
                  t.userId == refereeId && t.txType == TxType.purchase &&
                    t.amount ≤ -10000)).length
            · constructor
              · simp only [award_referral_bonus, hfind, href, if_neg hamt,
                  if_pos hcount]
                constructor
                · intro hfalse
                  exact absurd hfalse (by simp)
                · rintro ⟨referee', heq, rid', _, _, _, hle⟩
                  rw [Option.some.injEq] at heq
                  subst heq
                  omega
              · intro b st' hpair
                simp only [award_referral_bonus, hfind, href, if_neg hamt,
                  if_pos hcount] at hpair
                exact absurd hpair (by simp)
            · cases hfr : findUser st.users rid with
              | none =>
                  constructor
                  · simp only [award_referral_bonus, hfind, href, if_neg hamt,
                      if_neg hcount, hfr]
                    constructor
                    · intro hfalse
                      exact absurd hfalse (by simp)
                    · rintro ⟨referee', heq, rid', hby, hsome, _, _⟩
                      rw [Option.some.injEq] at heq
                      subst heq
                      rw [href, Option.some.injEq] at hby
                      subst hby
                      rw [hfr] at hsome
                      exact absurd hsome (by simp)
                  · intro b st' hpair
                    simp only [award_referral_bonus, hfind, href, if_neg hamt,
                      if_neg hcount, hfr] at hpair
                    exact absurd hpair (by simp)
              | some referrer =>
                  constructor
                  · simp only [award_referral_bonus, hfind, href, if_neg hamt,
                      if_neg hcount, hfr]
                    constructor
                    · intro _
                      exact ⟨referee, rfl, rid, href, by rw [hfr]; rfl,
                        by omega, by omega⟩
                    · intro _
                      simp
                  · intro b st' hpair
                    simp only [award_referral_bonus, hfind, href, if_neg hamt,
                      if_neg hcount, hfr, Prod.mk.injEq, Option.some.injEq] at hpair
                    obtain ⟨hb, hst⟩ := hpair
                    subst hb
                    exact ⟨rfl, referee, rid, rfl, href, by rw [← hst], by rw [← hst]⟩

/-- C7 amended-theorem witness: a referred buyer whose sole qualifying purchase
is the just-committed 100.01 ZNC one earns the referrer a bonus. -/
theorem award_referral_bonus_correct_witness :
    (award_referral_bonus firstBuyerState "buyer2" 10001).1.isSome = true :=
  (award_referral_bonus_correct firstBuyerState "buyer2" 10001).1.mpr
    ⟨⟨"buyer2", 0, some "ref2", 0⟩, by decide, "ref2", by decide, by decide,
      by decide, by decide⟩

/-- Pruning removes nothing when every entry is still inside the window. -/
theorem zrem_eq_self (entries : List RLEntry) (now window : Int)
    (h : ∀ e ∈ entries, now - window < e.score) :
    zremrangebyscore entries now window = entries := by
  rw [zremrangebyscore, List.filter_eq_self]
  intro e he
  have h1 := h e he
  simp [not_le.mpr h1]

/-- The minimum score is bounded below by any common lower bound. -/
theorem lowestScore_ge (entries : List RLEntry) (lo : Int)
    (h : ∀ e ∈ entries, lo ≤ e.score) :
    ∀ v, lowestScore entries = some v → lo ≤ v := by
  induction entries with
  | nil => intro v hv; exact absurd hv (by simp [lowestScore])
  | cons e rest ih =>
      intro v hv
      rw [lowestScore] at hv
      cases hrest : lowestScore rest with
      | none =>
          rw [hrest] at hv
          rw [Option.some.injEq] at hv
          rw [← hv]
          exact h e (by simp)
      | some m =>
          rw [hrest] at hv
          rw [Option.some.injEq] at hv
          rw [← hv]
          exact le_min (h e (by simp))
            (ih (fun x hx => h x (by simp [hx])) m hrest)

/-- A non-empty sorted set has a minimum score. -/
theorem lowestScore_exists (entries : List RLEntry) (hne : entries ≠ []) :
    ∃ v, lowestScore entries = some v := by
  cases entries with
  | nil => exact absurd rfl hne
  | cons e rest =>
      rw [lowestScore]
      cases lowestScore rest with
      | none => exact ⟨e.score, rfl⟩
      | some m => exact ⟨min e.score m, rfl⟩

/-- A run of requests all inside one window, starting below the limit, is fully
allowed and leaves exactly one entry per request in the set. -/
theorem rateLimitRun_all_allowed :
    ∀ (reqs : List (Int × String)) (s : List RLEntry) (N : Nat) (W lo hi : Int),
      (∀ r ∈ reqs, lo ≤ r.1 ∧ r.1 ≤ hi) →
      (∀ e ∈ s, hi - W < e.score) →
      hi - W < lo →
      s.length + reqs.length ≤ N →
      rateLimitRun N W s reqs
        = (s ++ reqs.map (fun r => ⟨r.2, r.1⟩), none) := by
  intro reqs
  induction reqs with
  | nil =>
      intro s N W lo hi _ _ _ _
      simp [rateLimitRun]
  | cons r rest ih =>
      intro s N W lo hi hreqs hs hlohi hlen
      obtain ⟨t, m⟩ := r
      have hbound : lo ≤ t ∧ t ≤ hi := hreqs (t, m) (by simp)
      have hlen' : s.length + rest.length + 1 ≤ N := by
        simp only [List.length_cons] at hlen
        omega
      have hprune : zremrangebyscore s t W = s := by
        apply zrem_eq_self
        intro e he
        have := hs e he
        omega
      have hlt : ¬ (N ≤ s.length) := by omega
      have hstep : rateLimitStep s N W t m = .allowed (s ++ [⟨m, t⟩]) := by
        simp only [rateLimitStep, hprune]
        rw [if_neg hlt]
      have hreqs' : ∀ x ∈ rest, lo ≤ x.1 ∧ x.1 ≤ hi :=
        fun x hx => hreqs x (by simp [hx])
      have hs' : ∀ e ∈ s ++ [(⟨m, t⟩ : RLEntry)], hi - W < e.score := by
        intro e he
        rcases List.mem_append.mp he with h1 | h1
        · exact hs e h1
        · rw [List.mem_singleton] at h1
          rw [h1]
          show hi - W < t
          omega
      have hlen'' : (s ++ [(⟨m, t⟩ : RLEntry)]).length + rest.length ≤ N := by
        simp only [List.length_append, List.length_singleton]
        omega
      have hih := ih (s ++ [(⟨m, t⟩ : RLEntry)]) N W lo hi hreqs' hs' hlohi hlen''
      simp only [rateLimitRun, hstep, hih]
      simp

/-- C8: with the `auth` limit class (5 requests per 3600-second window, keyed
by client IP), any 5 requests inside one window are all admitted by the sliding
window of `RateLimitMiddleware.dispatch`, and a 6th request still inside the
window of the first is rejected with a strictly positive `retry_after`. -/
theorem auth_rate_limit_sliding_window :
    ∀ (reqs : List (Int × String)) (tLast : Int) (mLast : String)
      (lo : Int) (N : Nat) (W : Int),
      LIMITS "auth" = some (N, W) →
      reqs.length = N →
      (∀ r ∈ reqs, lo ≤ r.1 ∧ r.1 ≤ tLast) →
      tLast - W < lo →
      ∃ entries retry,
        rateLimitRun N W [] reqs = (entries, none) ∧
        rateLimitStep entries N W tLast mLast = .rejected retry ∧
        0 < retry := by
  intro reqs tLast mLast lo N W hlim hlen hbound hwin
  rw [show LIMITS "auth" = some (5, 3600) from rfl, Option.some.injEq,
    Prod.mk.injEq] at hlim
  obtain ⟨hN, hW⟩ := hlim
  subst hN
  subst hW
  have hrun := rateLimitRun_all_allowed reqs [] 5 3600 lo tLast hbound
    (by simp) hwin (by simp [hlen])
  simp only [List.nil_append] at hrun
  have hscores : ∀ e ∈ reqs.map (fun r => (⟨r.2, r.1⟩ : RLEntry)), lo ≤ e.score := by
    intro e he
    obtain ⟨r, hr, rfl⟩ := List.mem_map.mp he
    exact (hbound r hr).1
  have hne : reqs.map (fun r => (⟨r.2, r.1⟩ : RLEntry)) ≠ [] := by
    intro hnil
    have := congrArg List.length hnil
    simp [hlen] at this
  obtain ⟨v, hv⟩ := lowestScore_exists _ hne
  have hvlo := lowestScore_ge _ lo hscores v hv
  have hprune : zremrangebyscore (reqs.map (fun r => (⟨r.2, r.1⟩ : RLEntry)))
      tLast 3600 = reqs.map (fun r => (⟨r.2, r.1⟩ : RLEntry)) := by
    apply zrem_eq_self
    intro e he
    have := hscores e he
    omega
  refine ⟨reqs.map (fun r => ⟨r.2, r.1⟩),
    max 0 (v + 3600 - tLast), hrun, ?_, ?_⟩
  · simp only [rateLimitStep, hprune]
    rw [if_pos (by simp [hlen]), getRetryAfter, hv]
  · have hpos : 0 < v + 3600 - tLast := by omega
    exact lt_of_lt_of_le hpos (le_max_right 0 _)

/-- C8 witness: five requests in one hour pass, the sixth is rejected with a
positive `retry_after`. -/
theorem auth_rate_limit_sliding_window_witness :
    ∃ entries retry,
      rateLimitRun 5 3600 []
          [(1000, "a"), (1001, "b"), (1002, "c"), (1003, "d"), (1004, "e")]
        = (entries, none) ∧
      rateLimitStep entries 5 3600 1005 "f" = .rejected retry ∧
      0 < retry :=
  auth_rate_limit_sliding_window
    [(1000, "a"), (1001, "b"), (1002, "c"), (1003, "d"), (1004, "e")]
    1005 "f" 1000 5 3600 rfl rfl (by decide) (by decide)

/-- A successful `find?` splits the list at the first match. -/
theorem find?_decomp {α : Type} (p : α → Bool) (l : List α) (a : α)
    (h : l.find? p = some a) :
    ∃ pre post, l = pre ++ a :: post ∧ ∀ x ∈ pre, p x = false := by
  induction l with
  | nil => exact absurd h (by simp)
  | cons b rest ih =>
      cases hb : p b with
      | true =>
          rw [List.find?_cons_of_pos _ hb, Option.some.injEq] at h
          exact ⟨[], rest, by rw [h]; rfl, by simp⟩
      | false =>
          rw [List.find?_cons_of_neg _ (by simp [hb])] at h
          obtain ⟨pre, post, heq, hpre⟩ := ih h
          refine ⟨b :: pre, post, by rw [heq]; rfl, ?_⟩
          intro x hx
          rcases List.mem_cons.mp hx with h1 | h1
          · rw [h1]; exact hb
          · exact hpre x h1

/-- Lemma: `updateActiveSession` rewrites exactly the first active session for the
token and leaves everything else untouched. -/
theorem updateActiveSession_decomp (tokenId : String)
    (f : ProxySession → ProxySession) (pre : List ProxySession)
    (s : ProxySession) (post : List ProxySession)
    (hpre : ∀ x ∈ pre, isActiveFor tokenId x = false)
    (hs : isActiveFor tokenId s = true) :
    updateActiveSession tokenId f (pre ++ s :: post) = pre ++ f s :: post := by
  induction pre with
  | nil => simp [updateActiveSession, hs]
  | cons x rest ih =>
      have hx := hpre x (by simp)
      show (if isActiveFor tokenId x = true then
          f x :: (rest ++ s :: post)
        else x :: updateActiveSession tokenId f (rest ++ s :: post))
        = x :: (rest ++ f s :: post)
      rw [if_neg (by simp [hx])]
      rw [ih (fun y hy => hpre y (by simp [hy]))]

/-- C9: assuming the one-active-session-per-token invariant, `track_request`
raises *DeviceConflict* exactly when an active session for the token carries a
different device id (touching nothing); with a matching device id it updates
only that session — last activity, request count, byte total, IP, user agent;
with no active session it appends a fresh active session with the supplied
fields. -/
theorem track_request_device_conflict_spec :
    ∀ (sessions : List ProxySession)
      (userId tokenId deviceId ipAddress : String) (userAgent : Option String)
      (bytes : Nat) (now : Int),
      (∀ s₁ ∈ sessions, ∀ s₂ ∈ sessions,
        isActiveFor tokenId s₁ = true → isActiveFor tokenId s₂ = true → s₁ = s₂) →
      ((∃ s ∈ sessions, isActiveFor tokenId s = true ∧ s.deviceId ≠ deviceId) ↔
        (∃ d, track_request sessions userId tokenId deviceId ipAddress userAgent
          bytes now = .conflict d))
      ∧ (∀ s ∈ sessions, isActiveFor tokenId s = true → s.deviceId = deviceId →
          ∃ pre post, sessions = pre ++ s :: post ∧
            track_request sessions userId tokenId deviceId ipAddress userAgent
              bytes now = .tracked (pre ++
                { s with
                  lastActivity := now
                  requestCount := s.requestCount + 1
                  bytesTransferred := s.bytesTransferred + bytes
                  ipAddress := ipAddress
                  userAgent := userAgent } :: post))
      ∧ ((∀ s ∈ sessions, isActiveFor tokenId s = false) →
          track_request sessions userId tokenId deviceId ipAddress userAgent
            bytes now = .tracked (sessions ++
              [{ userId := userId
                 tokenId := tokenId
                 deviceId := deviceId
                 ipAddress := ipAddress
                 userAgent := userAgent
                 startedAt := now
                 lastActivity := now
                 requestCount := 1
                 bytesTransferred := bytes
                 isActive := true }])) := by
  intro sessions userId tokenId deviceId ipAddress userAgent bytes now huniq
  refine ⟨⟨?_, ?_⟩, ?_, ?_⟩
  · rintro ⟨s, hmem, hact, hdev⟩
    cases hf : sessions.find? (isActiveFor tokenId) with
    | none =>
        rw [List.find?_eq_none] at hf
        exact absurd hact (by simp [hf s hmem])
    | some s₀ =>
        have hs₀ : s₀ = s :=
          huniq s₀ (List.mem_of_find?_eq_some hf) s hmem (List.find?_some hf) hact
        subst hs₀
        refine ⟨s₀.deviceId, ?_⟩
        simp only [track_request, hf]
        rw [if_pos hdev]
  · rintro ⟨d, hd⟩
    cases hf : sessions.find? (isActiveFor tokenId) with
    | none =>
        simp only [track_request, hf] at hd
        exact absurd hd (by simp)
    | some s₀ =>
        simp only [track_request, hf] at hd
        by_cases hdev : s₀.deviceId ≠ deviceId
        · exact ⟨s₀, List.mem_of_find?_eq_some hf, List.find?_some hf, hdev⟩
        · rw [if_neg hdev] at hd
          exact absurd hd (by simp)
  · intro s hmem hact hdev
    cases hf : sessions.find? (isActiveFor tokenId) with
    | none =>
        rw [List.find?_eq_none] at hf
        exact absurd hact (by simp [hf s hmem])
    | some s₀ =>
        have hs₀ : s₀ = s :=
          huniq s₀ (List.mem_of_find?_eq_some hf) s hmem (List.find?_some hf) hact
        subst hs₀
        obtain ⟨pre, post, heq, hpre⟩ := find?_decomp _ _ _ hf
        refine ⟨pre, post, heq, ?_⟩
        simp only [track_request, hf]
        rw [if_neg (by simp [hdev]), heq,
          updateActiveSession_decomp tokenId _ pre s₀ post hpre
            (List.find?_some hf)]
  · intro hall
    have hf : sessions.find? (isActiveFor tokenId) = none :=
      List.find?_eq_none.mpr (fun x hx => by simp [hall x hx])
    simp only [track_request, hf]

/-- C9 witness: on an empty session table a tracked request creates the fresh
active session. -/
theorem track_request_device_conflict_spec_witness :
    track_request [] "u" "tok" "device-1" "1.2.3.4" none 0 100
      = .tracked
          [{ userId := "u"
             tokenId := "tok"
             deviceId := "device-1"
             ipAddress := "1.2.3.4"
             userAgent := none
             startedAt := 100
             lastActivity := 100
             requestCount := 1
             bytesTransferred := 0
             isActive := true }] := by
  have h := (track_request_device_conflict_spec [] "u" "tok" "device-1"
    "1.2.3.4" none 0 100 (by simp)).2.2 (by simp)
  simpa using h

/-- The Python-side usability filter as a proposition: never activated, or
expiry strictly in the future. -/
theorem notExpired_iff (now : Int) (t : AccessToken) :
    notExpired now t = true ↔
      (t.activatedAt = none ∨ ∃ e, t.expiresAt = some e ∧ now < e) := by
  cases h : t.activatedAt with
  | none =>
      simp [notExpired, AccessToken.expiresAt, h]
  | some a =>
      simp [notExpired, AccessToken.expiresAt, h]

/-- C10: `get_user_tokens(user, active_only=True)` returns exactly the user's
tokens whose active flag is set, whose revocation time is null, and which are
either not yet activated or expire strictly later than now — ordered
newest-created first. -/
theorem get_user_tokens_active_spec :
    ∀ (tokens : List AccessToken) (userId : String) (now : Int),
      (∀ t, t ∈ get_user_tokens tokens userId true now ↔
        (t ∈ tokens ∧ t.userId = userId ∧ t.isActive = true ∧
          t.revokedAt = none ∧
          (t.activatedAt = none ∨ ∃ e, t.expiresAt = some e ∧ now < e)))
      ∧ List.Sorted createdDesc (get_user_tokens tokens userId true now) := by
  intro tokens userId now
  have hshape : get_user_tokens tokens userId true now
      = (((tokens.filter (fun t => t.userId == userId)).filter
            (fun t => t.isActive && t.revokedAt == none)).insertionSort
          createdDesc).filter (notExpired now) := rfl
  constructor
  · intro t
    rw [hshape, List.mem_filter,
      (List.perm_insertionSort createdDesc _).mem_iff, List.mem_filter,
      List.mem_filter, notExpired_iff]
    simp only [Bool.and_eq_true, beq_iff_eq]
    tauto
  · rw [hshape]
    exact List.Pairwise.filter _
      (List.sorted_insertionSort createdDesc _)

/-- C10 witness: a freshly purchased, never-activated token is listed among the
active tokens even though it has no expiry yet. -/
theorem get_user_tokens_active_spec_witness :
    freshToken ∈ get_user_tokens [freshToken] "u" true 0 :=
  ((get_user_tokens_active_spec [freshToken] "u" 0).1 freshToken).mpr
    ⟨by simp, rfl, rfl, rfl, Or.inl rfl⟩

/-- C3: for every active bundle, `purchase_bundle` with sufficient balance
deducts exactly the bundle's total price, issues exactly `token_count` tokens
each carrying the bundle's duration and scope with a null activation time,
appends exactly one purchase transaction of `-total_price`, and reports the
bundle name, token count, cost and new balance; with insufficient balance it
fails with *InsufficientBalance* (402), committing nothing. -/
theorem purchase_bundle_spec :
    ∀ (bundles : List Bundle) (bundleId userId : String) (st : PurchaseState)
      (now : Int) (bundle : Bundle),
      bundles.find? (fun b => b.id == bundleId && b.isActive) = some bundle →
      ((bundle.totalPrice ≤ st.balance →
        ∃ outcome st',
          purchase_bundle bundles bundleId userId st now = .ok (outcome, st') ∧
          st'.balance = st.balance - bundle.totalPrice ∧
          (∃ newTokens, st'.tokens = st.tokens ++ newTokens ∧
            newTokens.length = bundle.tokenCount ∧
            ∀ t ∈ newTokens, t.userId = userId ∧
              t.durationHours = bundle.durationHours ∧
              t.scope = bundle.scope ∧
              t.activatedAt = none ∧ t.isActive = true) ∧
          (∃ d, st'.txs = st.txs ++
            [⟨userId, -bundle.totalPrice, .purchase, d, none⟩]) ∧
          outcome.bundleName = bundle.name ∧
          outcome.tokensGenerated = bundle.tokenCount ∧
          outcome.costZnc = bundle.totalPrice ∧
          outcome.newBalance = st.balance - bundle.totalPrice)
      ∧ (st.balance < bundle.totalPrice →
          purchase_bundle bundles bundleId userId st now
            = .error .insufficientBalance)) := by
  intro bundles bundleId userId st now bundle hfind
  constructor
  · intro hbal
    have hnot : ¬ (st.balance < bundle.totalPrice) := not_lt.mpr hbal
    have hok : purchase_bundle bundles bundleId userId st now
        = .ok ({ bundleName := bundle.name
                 tokensGenerated := ((List.range bundle.tokenCount).map (fun i =>
                   create_token_without_charge (bundleId ++ "-" ++ toString i)
                     userId bundle.durationHours bundle.scope now)).length
                 costZnc := bundle.totalPrice
                 newBalance := st.balance - bundle.totalPrice },
               { balance := st.balance - bundle.totalPrice
                 tokens := st.tokens ++ (List.range bundle.tokenCount).map (fun i =>
                   create_token_without_charge (bundleId ++ "-" ++ toString i)
                     userId bundle.durationHours bundle.scope now)
                 txs := st.txs ++ [⟨userId, -bundle.totalPrice, .purchase,
                   "Bundle purchase: " ++ bundle.name, none⟩] }) := by
      simp only [purchase_bundle, hfind]
      rw [if_neg hnot]
    refine ⟨_, _, hok, rfl, ⟨_, rfl, by simp, ?_⟩, ⟨_, rfl⟩, rfl, by simp, rfl, rfl⟩
    intro t ht
    obtain ⟨i, _, rfl⟩ := List.mem_map.mp ht
    exact ⟨rfl, rfl, rfl, rfl, rfl⟩
  · intro hlt
    simp only [purchase_bundle, hfind]
    rw [if_pos hlt]

/-- C3 witness: buying the 10×24h bundle at 153.00 ZNC with a 200.00 ZNC
balance issues 10 tokens and leaves 47.00 ZNC. -/
theorem purchase_bundle_spec_witness :
    ∃ outcome st',
      purchase_bundle [demoBundle] "bundle-1" "buyer" demoBuyerState 0
        = .ok (outcome, st') ∧
      st'.balance = 4700 ∧ outcome.tokensGenerated = 10 := by
  obtain ⟨outcome, st', hok, hbal, _, _, _, hcnt, _, _⟩ :=
    (purchase_bundle_spec [demoBundle] "bundle-1" "buyer" demoBuyerState 0
      demoBundle (by decide)).1 (by decide)
  exact ⟨outcome, st', hok, by rw [hbal]; decide, by rw [hcnt]; decide⟩

/-- C6 amended-theorem witness: the `Host` header reaching the upstream is not
the client auth header. -/
theorem access_token_header_never_forwarded_witness :
    ("Host", "zenzefi.internal")
        ∈ buildUpstreamHeaders [] "10.0.0.1" "proxy.local" "zenzefi.internal"
            "user-1" "token-1" none
    ∧ lowerStr ("Host", "zenzefi.internal").1 ≠ "x-access-token" :=
  ⟨by decide,
    access_token_header_never_forwarded [] "10.0.0.1" "proxy.local"
      "zenzefi.internal" "user-1" "token-1" none ("Host", "zenzefi.internal")
      (by decide)⟩

end Zenzefi
